import Mathlib

/-!
Verification of the session-state externalization subsystem of
asteroidai/playwright-mcp (the `StateManager` class of `stateManager.ts`
plus the data model it serializes).

The development shallowly embeds the TypeScript source:

* `PwMcp.JSVal` models the JavaScript values `StateManager.isValidState`
  receives as untrusted input; JavaScript `typeof`, truthiness and property
  reads are modelled by `jsTypeof`, `jsTruthy` and `jsGet`.  A property read
  on `null`/`undefined` throws a `TypeError`; `jsGet` therefore returns
  `Except Unit JSVal`, and `isValidState` returns `Except Unit Bool` so
  that a thrown exception is observable.
* `PwMcp.Tab` and `PwMcp.Context` model the state that
  `StateManager.serialize` reads from a live session: per-tab page url,
  cached title (`lastTitle()`), the console-message buffer, the ordered tab
  sequence, the current-tab pointer, and the outcome of the browser
  storage-state accessor (which may throw, hence `Except`).  The `id`
  field stands for JavaScript object identity, which `tabs.includes` /
  `tabs.indexOf` compare by.
* `StateManager.serialize`, `StateManager.hydrate` and
  `StateManager.isValidState` are translated statement by statement from
  the source.  Effects of `hydrate` on the browser are recorded as an
  explicit `HydrateAction` trace.
-/

deriving instance DecidableEq for Except

namespace PwMcp

/-! ## JavaScript value model (untrusted input of isValidState) -/

/-- A JavaScript data value: the shapes an untrusted snapshot can take. -/
inductive JSVal where
  | null
  | undef
  | bool (b : Bool)
  | num (n : Int)
  | str (s : String)
  | arr (xs : List JSVal)
  | obj (fields : List (String × JSVal))

/-- JavaScript `typeof` (note `typeof null === "object"`). -/
def jsTypeof : JSVal → String
  | .null => "object"
  | .undef => "undefined"
  | .bool _ => "boolean"
  | .num _ => "number"
  | .str _ => "string"
  | .arr _ => "object"
  | .obj _ => "object"

/-- JavaScript truthiness: `null`, `undefined`, `false`, `0`, `""` are falsy. -/
def jsTruthy : JSVal → Bool
  | .null => false
  | .undef => false
  | .bool b => b
  | .num n => n != 0
  | .str s => s != ""
  | .arr _ => true
  | .obj _ => true

/-- First-match key lookup in an object's field list; a missing key reads
as `undefined`. -/
def lookupField : List (String × JSVal) → String → JSVal
  | [], _ => .undef
  | (k, v) :: rest, key => if k = key then v else lookupField rest key

/-- JavaScript property read `v[key]`: throws a TypeError on `null` and
`undefined`; on objects looks the key up; on the remaining values it yields
`undefined` for the (non-builtin) keys this module ever reads. -/
def jsGet : JSVal → String → Except Unit JSVal
  | .null, _ => .error ()
  | .undef, _ => .error ()
  | .obj fs, key => .ok (lookupField fs key)
  | _, _ => .ok (JSVal.undef)

/-- Whether a value is a JavaScript array (`Array.isArray`). -/
def isArr : JSVal → Bool
  | .arr _ => true
  | _ => false

/-! ## StateManager.isValidState, translated check by check -/

namespace StateManager

/-- The per-entry checks of the `for (const tab of state.tabs)` loop of
`isValidState`: `typeof tab.url !== 'string'`, `typeof tab.title !==
'string'`, `typeof tab.index !== 'number'`,
`!Array.isArray(tab.recentConsoleMessages)`, in source order; each property
read can throw when `tab` is `null`/`undefined`. -/
def checkTab (tab : JSVal) : Except Unit Bool :=
  match jsGet tab "url" with
  | .error e => .error e
  | .ok u =>
    if jsTypeof u ≠ "string" then .ok false
    else match jsGet tab "title" with
    | .error e => .error e
    | .ok t =>
      if jsTypeof t ≠ "string" then .ok false
      else match jsGet tab "index" with
      | .error e => .error e
      | .ok i =>
        if jsTypeof i ≠ "number" then .ok false
        else match jsGet tab "recentConsoleMessages" with
        | .error e => .error e
        | .ok r =>
          if ¬ isArr r then .ok false
          else .ok true

/-- The tab loop of `isValidState`: first failing entry returns `false`,
a throwing entry propagates the exception, otherwise `true`. -/
def checkTabs : List JSVal → Except Unit Bool
  | [] => .ok true
  | tab :: rest =>
    match checkTab tab with
    | .error e => .error e
    | .ok false => .ok false
    | .ok true => checkTabs rest

/-- `StateManager.isValidState`, translated statement by statement:
the guard `!state || typeof state !== 'object'`, then the checks on
`version`, `tabs`, `currentTabIndex`, `metadata` / `metadata.lastUpdated`,
then the tab loop. -/
def isValidState (state : JSVal) : Except Unit Bool :=
  if jsTruthy state = false ∨ jsTypeof state ≠ "object" then .ok false
  else match jsGet state "version" with
  | .error e => .error e
  | .ok v =>
    if jsTypeof v ≠ "number" then .ok false
    else match jsGet state "tabs" with
    | .error e => .error e
    | .ok tabsVal =>
      match tabsVal with
      | .arr tabsList =>
        match jsGet state "currentTabIndex" with
        | .error e => .error e
        | .ok cti =>
          if jsTypeof cti ≠ "number" then .ok false
          else match jsGet state "metadata" with
          | .error e => .error e
          | .ok md =>
            if jsTruthy md = false then .ok false
            else match jsGet md "lastUpdated" with
            | .error e => .error e
            | .ok lu =>
              if jsTypeof lu ≠ "string" then .ok false
              else checkTabs tabsList
      | _ => .ok false

end StateManager

/-! ## Spec-side structural predicate

`validTabSpec` / `validStateSpec` restate the specification's words for the
validator ("version numeric; tabs is a sequence; each tab entry has string
url/title, numeric index, sequence recentConsoleMessages; currentTabIndex
numeric; metadata.lastUpdated string"), to be compared with the translated
code above. -/

/-- Total field read used by the spec-side predicate: `undefined` on
anything that is not an object. -/
def fieldD (v : JSVal) (key : String) : JSVal :=
  match v with
  | .obj fs => lookupField fs key
  | _ => (JSVal.undef)

/-- Whether a value is a JavaScript string. -/
def isStr : JSVal → Bool
  | .str _ => true
  | _ => false

/-- Whether a value is a JavaScript number. -/
def isNum : JSVal → Bool
  | .num _ => true
  | _ => false

/-- Spec-side shape of one tab entry: string `url`, string `title`,
numeric `index`, array `recentConsoleMessages`. -/
def validTabSpec (t : JSVal) : Bool :=
  isStr (fieldD t "url") && isStr (fieldD t "title") &&
    isNum (fieldD t "index") && isArr (fieldD t "recentConsoleMessages")

/-- Spec-side shape of a serialized state: an object with numeric
`version`, an array `tabs` of valid tab entries, numeric
`currentTabIndex`, and a `metadata` with string `lastUpdated`. -/
def validStateSpec : JSVal → Bool
  | .obj fs =>
    isNum (lookupField fs "version") &&
      (match lookupField fs "tabs" with
       | .arr ts => ts.all validTabSpec
       | _ => false) &&
      isNum (lookupField fs "currentTabIndex") &&
      isStr (fieldD (lookupField fs "metadata") "lastUpdated")
  | _ => false

/-! Field editing on the JS value model, used to state that the validator
ignores the `browserStorageState` field and `metadata.serializedBy`. -/

/-- Replace the first binding of `key` in a field list, or append one. -/
def setF : List (String × JSVal) → String → JSVal → List (String × JSVal)
  | [], key, v => [(key, v)]
  | (k, w) :: rest, key, v =>
    if k = key then (key, v) :: rest else (k, w) :: setF rest key v

/-- Drop every binding of `key` from a field list. -/
def removeF : List (String × JSVal) → String → List (String × JSVal)
  | [], _ => []
  | (k, w) :: rest, key =>
    if k = key then removeF rest key else (k, w) :: removeF rest key

/-- Set a field of an object value (non-objects are left unchanged). -/
def setField : JSVal → String → JSVal → JSVal
  | .obj fs, key, v => .obj (setF fs key v)
  | s, _, _ => s

/-- Remove a field of an object value (non-objects are left unchanged). -/
def removeField : JSVal → String → JSVal
  | .obj fs, key => .obj (removeF fs key)
  | s, _ => s

/-! ## Session data model read by StateManager.serialize -/

/-- A console message recorded by a tab (`ConsoleMessage` of `tab.ts`):
an optional type and the text. -/
structure ConsoleMessage where
  type : Option String
  text : String
deriving DecidableEq, Repr

/-- One per-origin localStorage record of a Playwright storage state. -/
structure StorageOrigin where
  origin : String
  localStorage : List (String × String)
deriving DecidableEq, Repr

/-- What `browserContext.storageState()` returns when it does not throw.
`origins` is optional because the code guards it with
`storageState.origins || []`; cookies are opaque to this module and kept
as strings. -/
structure StorageState where
  cookies : List String
  origins : Option (List StorageOrigin)
deriving DecidableEq, Repr

/-- The `browserStorageState` half of a `SerializedState`. -/
structure BrowserStorageState where
  cookies : List String
  origins : List StorageOrigin
deriving DecidableEq, Repr

/-- A live `Tab` as `StateManager.serialize` reads it: `page.url()`, the
cached `lastTitle()`, and the `consoleMessages()` buffer.  `id` stands for
JavaScript object identity, which `tabs.includes` / `tabs.indexOf` use. -/
structure Tab where
  id : Nat
  url : String
  lastTitle : String
  consoleMessages : List ConsoleMessage
deriving DecidableEq, Repr

/-- A live `Context` session as `StateManager` reads it: the ordered tab
sequence (`context.tabs()`), the current-tab pointer
(`context.currentTab()`), and the outcome of the storage-state accessor
reached through the current tab's owning browser context (`Except.error`
models the accessor throwing, e.g. a context already closed). -/
structure Context where
  tabs : List Tab
  currentTab : Option Tab
  storageState : Except Unit StorageState

/-- One serialized tab entry of the `SerializedState` wire format. -/
structure SerializedTab where
  url : String
  title : String
  index : Nat
  recentConsoleMessages : List ConsoleMessage
deriving DecidableEq, Repr

/-- The `metadata` of a `SerializedState`. -/
structure StateMetadata where
  lastUpdated : String
  serializedBy : String
deriving DecidableEq, Repr

/-- The `SerializedState` wire format produced by `serialize`. -/
structure SerializedState where
  version : Nat
  browserStorageState : Option BrowserStorageState
  tabs : List SerializedTab
  currentTabIndex : Int
  metadata : StateMetadata
deriving DecidableEq, Repr

/-- The last `n` elements of a list: `Array.prototype.slice(-n)`. -/
def lastN (n : Nat) (l : List α) : List α :=
  l.drop (l.length - n)

namespace StateManager

/-- One entry of the `tabs.map((tab, index) => ...)` of `serialize`:
url, cached title, position index, last 50 console messages. -/
def mkSerializedTab (index : Nat) (tab : Tab) : SerializedTab :=
  { url := tab.url
    title := tab.lastTitle
    index := index
    recentConsoleMessages := lastN 50 tab.consoleMessages }

/-- The `tabs.map((tab, index) => ...)` of `serialize`, with the running
index made explicit. -/
def serializeTabsFrom : Nat → List Tab → List SerializedTab
  | _, [] => []
  | i, tab :: rest => mkSerializedTab i tab :: serializeTabsFrom (i + 1) rest

/-- `StateManager.serialize`, translated statement by statement.
`maxTabsToTrack` is the optional argument; `now` stands for
`new Date().toISOString()` and `hostname` / `userEnv` for
`process.env.HOSTNAME` / `process.env.USER` (absent variables read as the
empty, falsy string). -/
def serialize (context : Context) (maxTabsToTrack : Option Int)
    (now hostname userEnv : String) : SerializedState :=
  let currentTab := context.currentTab
  let tabs :=
    match maxTabsToTrack with
    | some k => if 0 < k then context.tabs.take k.toNat else context.tabs
    | none => context.tabs
  let browserStorageState : Option BrowserStorageState :=
    match currentTab with
    | some _ =>
      match context.storageState with
      | .ok st => some { cookies := st.cookies, origins := st.origins.getD [] }
      | .error _ => none
    | none => none
  let serializedTabs := serializeTabsFrom 0 tabs
  let currentTabIndex : Int :=
    match currentTab with
    | some ct => if tabs.contains ct then Int.ofNat (List.indexOf ct tabs) else -1
    | none => -1
  { version := 1
    browserStorageState := browserStorageState
    tabs := serializedTabs
    currentTabIndex := currentTabIndex
    metadata :=
      { lastUpdated := now
        serializedBy :=
          if hostname ≠ "" then hostname
          else if userEnv ≠ "" then userEnv
          else "unknown" } }

end StateManager

/-- The tab sequence `serialize` retains after the `maxTabsToTrack`
truncation step (the local `tabs` of the source, made reusable for
stating lemmas). -/
def retainedTabs (ctx : Context) (m : Option Int) : List Tab :=
  match m with
  | some k => if 0 < k then ctx.tabs.take k.toNat else ctx.tabs
  | none => ctx.tabs

/-- The current-tab index a session reports, exactly as `serialize`
computes it over the untruncated tab sequence. -/
def currentTabIndexOf (c : Context) : Int :=
  match c.currentTab with
  | some ct => if c.tabs.contains ct then Int.ofNat (List.indexOf ct c.tabs) else -1
  | none => -1

/-! ## StateManager.hydrate -/

/-- A Playwright browser context as `hydrate` observes it: the pages the
pool currently exposes (handles opaque). -/
structure BrowserContext where
  pages : List Nat

/-- One operation `hydrate` can perform against the browser or the
session.  The vocabulary includes closing and navigation so that frame
conditions ("never closes, never navigates") are statable; the code only
ever emits `newPage` and `hydrateTabState`. -/
inductive HydrateAction where
  | newPage
  | closePage (page : Nat)
  | navigate (page : Nat) (url : String)
  | hydrateTabState (stored : List SerializedTab) (currentTabIndex : Int) (maxTabs : Nat)
deriving DecidableEq, Repr

/-- Whether an action is the keep-alive page creation. -/
def isNewPage : HydrateAction → Bool
  | .newPage => true
  | _ => false

/-- Whether an action is the tab-state reconciliation call. -/
def isReconcile : HydrateAction → Bool
  | .hydrateTabState _ _ _ => true
  | _ => false

/-- Restore stored per-tab metadata positionally onto the discovered tabs,
up to `maxTabs` positions: the per-position step of `hydrateTabState`. -/
def restoreTab (t : Tab) (s : SerializedTab) : Tab :=
  { t with lastTitle := s.title, consoleMessages := s.recentConsoleMessages }

/-- Positional restoration over the tab sequence, stopping after
`maxTabs` positions or when either list runs out (a stored position with
no discovered tab is a no-op). -/
def restoreTabs : List Tab → List SerializedTab → Nat → List Tab
  | ts, _, 0 => ts
  | [], _, _ + 1 => []
  | t :: ts, [], _ + 1 => t :: ts
  | t :: ts, s :: ss, n + 1 => restoreTab t s :: restoreTabs ts ss n

/-- Modelled from the spec: `Context.hydrateTabState` is not among the
examined sources (only its call site in `StateManager.hydrate` is).  Per
the spec (§4.2 step 2) it matches stored per-tab metadata (title, recent
console messages) positionally against the session's discovered tabs, up
to `maxTabs`, a stored position with no corresponding discovered tab being
a no-op, and sets the current-tab pointer from `currentTabIndex`
(−1 meaning none; an index with no corresponding tab yields none). -/
def Context.hydrateTabState (c : Context) (stored : List SerializedTab)
    (currentTabIndex : Int) (maxTabs : Nat) : Context :=
  let tabs := restoreTabs c.tabs stored maxTabs
  { c with
    tabs := tabs
    currentTab := if currentTabIndex < 0 then none else tabs.get? currentTabIndex.toNat }

namespace StateManager

/-- `StateManager.hydrate`, translated statement by statement.  The first
component records the operations performed, in order: the keep-alive
`browserContext.newPage()` when the context has zero pages, then the
`context.hydrateTabState(state.tabs, state.currentTabIndex,
state.tabs.length)` call when a `Context` is supplied and the snapshot has
at least one tab.  The second component is the session afterwards. -/
def hydrate (browserContext : BrowserContext) (state : SerializedState)
    (context : Option Context) : List HydrateAction × Option Context :=
  let keepAlive : List HydrateAction :=
    if browserContext.pages.length = 0 then [.newPage] else []
  match context with
  | some c =>
    if 0 < state.tabs.length then
      (keepAlive ++ [.hydrateTabState state.tabs state.currentTabIndex state.tabs.length],
       some (c.hydrateTabState state.tabs state.currentTabIndex state.tabs.length))
    else
      (keepAlive, some c)
  | none => (keepAlive, none)

end StateManager

/-- Whether the `tabs` field (when it is an array) is free of `null` and
`undefined` entries — the inputs on which the validator's tab loop can
throw. -/
def noNullTabEntries (s : JSVal) : Bool :=
  match fieldD s "tabs" with
  | .arr ts =>
    ts.all fun t =>
      match t with
      | .null => false
      | .undef => false
      | _ => true
  | _ => true

/-! ## Concrete fixtures for witnesses and counterexamples -/

/-- The snapshot the spec lists as the accepted validator example. -/
def goodState : JSVal :=
  .obj [("version", .num 1), ("browserStorageState", .null), ("tabs", .arr []),
    ("currentTabIndex", .num (-1)),
    ("metadata", .obj [("lastUpdated", .str "2024-01-01T00:00:00Z"), ("serializedBy", .str "x")])]

/-- A snapshot whose `tabs` array contains a `null` entry. -/
def nullTabState : JSVal :=
  .obj [("version", .num 1), ("tabs", .arr [.null]), ("currentTabIndex", .num 0),
    ("metadata", .obj [("lastUpdated", .str "2024-01-01T00:00:00Z")])]

/-- A snapshot whose `tabs` array contains an `undefined` entry. -/
def undefTabState : JSVal :=
  .obj [("version", .num 1), ("tabs", .arr [.undef]), ("currentTabIndex", .num 0),
    ("metadata", .obj [("lastUpdated", .str "2024-01-01T00:00:00Z")])]

/-- A distinct console message per index. -/
def exMsg (i : Nat) : ConsoleMessage :=
  { type := some "log", text := Nat.repr i }

/-- The first `n` distinct console messages, in emission order. -/
def exMsgs (n : Nat) : List ConsoleMessage :=
  (List.range n).map exMsg

/-- Example tab with a small console buffer. -/
def exTab1 : Tab :=
  { id := 1, url := "https://a.example", lastTitle := "A", consoleMessages := [exMsg 0] }

/-- Example tab with an empty console buffer. -/
def exTab2 : Tab :=
  { id := 2, url := "https://b.example", lastTitle := "B", consoleMessages := [] }

/-- Example tab discovered last. -/
def exTab3 : Tab :=
  { id := 3, url := "https://c.example", lastTitle := "C", consoleMessages := [] }

/-- Example tab with more than 50 recorded console messages. -/
def exTabBig : Tab :=
  { id := 4, url := "https://d.example", lastTitle := "D", consoleMessages := exMsgs 60 }

/-- Example session: three tabs, the last one current, storage readable. -/
def exCtx : Context :=
  { tabs := [exTab1, exTab2, exTab3], currentTab := some exTab3,
    storageState := .ok { cookies := [], origins := none } }

/-- Example session whose storage-state accessor throws. -/
def exCtxFail : Context :=
  { tabs := [exTab1], currentTab := some exTab1, storageState := .error () }

/-- Example session with tabs but no current tab. -/
def exCtxNoCurrent : Context :=
  { tabs := [exTab1, exTab2], currentTab := none, storageState := .error () }

/-- Example session holding the single big-console tab. -/
def exCtxBig : Context :=
  { tabs := [exTabBig], currentTab := some exTabBig,
    storageState := .ok { cookies := [], origins := none } }

/-- A freshly discovered session over the same three pages as `exCtx`:
same page order, blank titles and console buffers, distinct identities. -/
def exFresh : Context :=
  { tabs :=
      [{ id := 11, url := "https://a.example", lastTitle := "", consoleMessages := [] },
       { id := 12, url := "https://b.example", lastTitle := "", consoleMessages := [] },
       { id := 13, url := "https://c.example", lastTitle := "", consoleMessages := [] }],
    currentTab := none, storageState := .error () }

/-- A browser context with zero pages. -/
def exBCEmpty : BrowserContext := { pages := [] }

/-- A browser context that already has a page. -/
def exBCOne : BrowserContext := { pages := [7] }

/-- A concrete serialized snapshot with one tab entry. -/
def exSnapshot : SerializedState :=
  { version := 1
    browserStorageState := none
    tabs := [{ url := "https://a.example", title := "A", index := 0,
               recentConsoleMessages := [exMsg 0] }]
    currentTabIndex := 0
    metadata := { lastUpdated := "2024-01-01T00:00:00Z", serializedBy := "x" } }

/-! ## Helper lemmas about the validator -/

theorem ite_typeof_str {α : Sort _} (v : JSVal) (a b : α) :
    (if jsTypeof v ≠ "string" then a else b) = if isStr v = true then b else a := by
  cases v <;> simp [jsTypeof, isStr]

theorem ite_typeof_num {α : Sort _} (v : JSVal) (a b : α) :
    (if jsTypeof v ≠ "number" then a else b) = if isNum v = true then b else a := by
  cases v <;> simp [jsTypeof, isNum]

theorem ite_not_arr {α : Sort _} (v : JSVal) (a b : α) :
    (if ¬ isArr v then a else b) = if isArr v = true then b else a := by
  cases v <;> simp [isArr]

theorem checkTab_ok_true_iff (t : JSVal) :
    StateManager.checkTab t = .ok true ↔ validTabSpec t = true := by
  cases t with
  | obj fs =>
    simp only [StateManager.checkTab, jsGet, validTabSpec, fieldD]
    rw [ite_typeof_str, ite_typeof_str, ite_typeof_num, ite_not_arr]
    cases h1 : isStr (lookupField fs "url") <;>
      cases h2 : isStr (lookupField fs "title") <;>
        cases h3 : isNum (lookupField fs "index") <;>
          cases h4 : isArr (lookupField fs "recentConsoleMessages") <;> simp
  | _ => simp [StateManager.checkTab, jsGet, validTabSpec, fieldD, isStr, jsTypeof]

theorem checkTab_error_imp (t : JSVal) (e : Unit)
    (h : StateManager.checkTab t = .error e) : t = .null ∨ t = .undef := by
  cases t with
  | null => exact Or.inl rfl
  | undef => exact Or.inr rfl
  | obj fs =>
    exfalso
    simp only [StateManager.checkTab, jsGet] at h
    rw [ite_typeof_str, ite_typeof_str, ite_typeof_num, ite_not_arr] at h
    split_ifs at h
  | _ =>
    exfalso
    simp [StateManager.checkTab, jsGet, jsTypeof] at h

theorem checkTabs_ok_true_iff (ts : List JSVal) :
    StateManager.checkTabs ts = .ok true ↔ ts.all validTabSpec = true := by
  induction ts with
  | nil => simp [StateManager.checkTabs]
  | cons t rest ih =>
    simp only [StateManager.checkTabs, List.all_cons]
    rcases h : StateManager.checkTab t with e | b
    · have hs : validTabSpec t = false := by
        cases hv : validTabSpec t
        · rfl
        · have hcontra := (checkTab_ok_true_iff t).2 hv
          rw [h] at hcontra
          cases hcontra
      simp [hs]
    · cases b with
      | false =>
        have hs : validTabSpec t = false := by
          cases hv : validTabSpec t
          · rfl
          · have hcontra := (checkTab_ok_true_iff t).2 hv
            rw [h] at hcontra
            cases hcontra
        simp [hs]
      | true =>
        have hs : validTabSpec t = true := (checkTab_ok_true_iff t).1 h
        simp [hs, ih]

theorem checkTabs_error_imp (ts : List JSVal) (e : Unit)
    (h : StateManager.checkTabs ts = .error e) :
    ∃ t ∈ ts, t = JSVal.null ∨ t = JSVal.undef := by
  induction ts with
  | nil => simp [StateManager.checkTabs] at h
  | cons t rest ih =>
    simp only [StateManager.checkTabs] at h
    rcases hc : StateManager.checkTab t with e2 | b
    · exact ⟨t, List.mem_cons_self t rest, checkTab_error_imp t e2 hc⟩
    · rw [hc] at h
      cases b with
      | false => cases h
      | true =>
        obtain ⟨u, hu, hd⟩ := ih h
        exact ⟨u, List.mem_cons_of_mem t hu, hd⟩

theorem jsTypeof_string_eq (v : JSVal) : (jsTypeof v = "string") = (isStr v = true) := by
  cases v <;> simp [jsTypeof, isStr]

theorem jsTypeof_number_eq (v : JSVal) : (jsTypeof v = "number") = (isNum v = true) := by
  cases v <;> simp [jsTypeof, isNum]

theorem jsGet_obj (fs : List (String × JSVal)) (key : String) :
    jsGet (.obj fs) key = .ok (lookupField fs key) := rfl

theorem jsGet_bool (b : Bool) (key : String) : jsGet (.bool b) key = .ok .undef := rfl

theorem jsGet_num (n : Int) (key : String) : jsGet (.num n) key = .ok .undef := rfl

theorem jsGet_str (s : String) (key : String) : jsGet (.str s) key = .ok .undef := rfl

theorem jsGet_arr (xs : List JSVal) (key : String) : jsGet (.arr xs) key = .ok .undef := rfl

theorem jsTruthy_null : jsTruthy .null = false := rfl

theorem jsTruthy_undef : jsTruthy .undef = false := rfl

theorem jsTruthy_obj (fs : List (String × JSVal)) : jsTruthy (.obj fs) = true := rfl

theorem jsTruthy_arr (xs : List JSVal) : jsTruthy (.arr xs) = true := rfl

theorem jsTruthy_bool (b : Bool) : jsTruthy (.bool b) = b := rfl

theorem jsTruthy_num (n : Int) : jsTruthy (.num n) = (n != 0) := rfl

theorem jsTruthy_str (s : String) : jsTruthy (.str s) = (s != "") := rfl

theorem jsTypeof_obj (fs : List (String × JSVal)) : jsTypeof (.obj fs) = "object" := rfl

theorem isValidState_ok_true_iff (s : JSVal) :
    StateManager.isValidState s = .ok true ↔ validStateSpec s = true := by
  cases s with
  | obj fs =>
    simp only [StateManager.isValidState, jsGet_obj, jsTruthy_obj, jsTypeof_obj]
    rw [if_neg (by simp)]
    cases h1 : isNum (lookupField fs "version")
    case false => simp [jsTypeof_number_eq, h1, validStateSpec]
    case true =>
      cases h2 : lookupField fs "tabs"
      case arr ts =>
        cases h3 : isNum (lookupField fs "currentTabIndex")
        case false => simp [jsTypeof_number_eq, h1, h2, h3, validStateSpec]
        case true =>
          cases h4 : lookupField fs "metadata"
          case obj gs =>
            cases h5 : isStr (lookupField gs "lastUpdated")
            case false =>
              simp [jsTypeof_number_eq, jsTypeof_string_eq, h1, h2, h3, h4, h5,
                jsTruthy_obj, jsGet_obj, validStateSpec, fieldD]
            case true =>
              simp [jsTypeof_number_eq, jsTypeof_string_eq, h1, h2, h3, h4, h5,
                jsTruthy_obj, jsGet_obj, validStateSpec, fieldD, checkTabs_ok_true_iff]
          all_goals
            simp [jsTypeof_number_eq, jsTypeof_string_eq, h1, h2, h3, h4,
              jsTruthy_null, jsTruthy_undef, jsTruthy_bool, jsTruthy_num,
              jsTruthy_str, jsTruthy_arr,
              jsGet_bool, jsGet_num, jsGet_str, jsGet_arr,
              validStateSpec, fieldD, isStr, ite_self]
      all_goals simp [jsTypeof_number_eq, h1, h2, validStateSpec]
  | _ => simp [StateManager.isValidState, jsGet, jsTruthy, jsTypeof, validStateSpec]

theorem jsGet_error_imp (v : JSVal) (key : String) (e : Unit)
    (h : jsGet v key = .error e) : v = .null ∨ v = .undef := by
  cases v with
  | null => exact Or.inl rfl
  | undef => exact Or.inr rfl
  | obj fs => simp [jsGet] at h
  | _ => simp [jsGet] at h

theorem isValidState_error_imp (s : JSVal)
    (h : StateManager.isValidState s = .error ()) : noNullTabEntries s = false := by
  cases s with
  | obj fs =>
    simp only [StateManager.isValidState, jsGet_obj, jsTruthy_obj, jsTypeof_obj] at h
    rw [if_neg (by simp)] at h
    split at h
    · cases h
    · split at h
      case h_1 ts heq =>
        split at h
        · cases h
        · split at h
          · cases h
          · split at h
            case h_1 e he =>
              rcases jsGet_error_imp _ _ _ he with hmd | hmd <;>
                simp_all [jsTruthy_null, jsTruthy_undef]
            case h_2 lu hlu =>
              split at h
              · cases h
              · obtain ⟨t, ht, hd⟩ := checkTabs_error_imp ts () h
                simp only [noNullTabEntries, fieldD, heq]
                rw [List.all_eq_false]
                refine ⟨t, ht, ?_⟩
                rcases hd with rfl | rfl <;> simp
      case h_2 => cases h
  | _ => simp [StateManager.isValidState, jsGet, jsTruthy, jsTypeof] at h

theorem isValidState_total_of_clean (s : JSVal) (h : noNullTabEntries s = true) :
    ∃ b, StateManager.isValidState s = .ok b := by
  rcases hr : StateManager.isValidState s with e | b
  · cases e
    have hcontra := isValidState_error_imp s hr
    rw [h] at hcontra
    simp at hcontra
  · exact ⟨b, rfl⟩

/-! ## Lookup lemmas for field editing -/

theorem lookupField_setF_same (fs : List (String × JSVal)) (key : String) (v : JSVal) :
    lookupField (setF fs key v) key = v := by
  induction fs with
  | nil => simp [setF, lookupField]
  | cons p rest ih =>
    obtain ⟨k, w⟩ := p
    by_cases hk : k = key
    · simp [setF, hk, lookupField]
    · simp [setF, hk, lookupField, ih]

theorem lookupField_setF_other (fs : List (String × JSVal)) (key key2 : String)
    (hne : key ≠ key2) (v : JSVal) :
    lookupField (setF fs key v) key2 = lookupField fs key2 := by
  induction fs with
  | nil => simp [setF, lookupField, hne]
  | cons p rest ih =>
    obtain ⟨k, w⟩ := p
    by_cases hk : k = key
    · subst hk
      simp [setF, lookupField, hne]
    · simp [setF, hk, lookupField, ih]

theorem lookupField_removeF_other (fs : List (String × JSVal)) (key key2 : String)
    (hne : key ≠ key2) :
    lookupField (removeF fs key) key2 = lookupField fs key2 := by
  induction fs with
  | nil => simp [removeF]
  | cons p rest ih =>
    obtain ⟨k, w⟩ := p
    by_cases hk : k = key
    · subst hk
      simp [removeF, lookupField, hne, ih]
    · simp [removeF, hk, lookupField, ih]

theorem validStateSpec_setField_version (s : JSVal) (n m : Int) :
    validStateSpec (setField s "version" (.num n)) =
      validStateSpec (setField s "version" (.num m)) := by
  cases s with
  | obj fs =>
    simp only [setField, validStateSpec, lookupField_setF_same,
      lookupField_setF_other fs "version" "tabs" (by simp),
      lookupField_setF_other fs "version" "currentTabIndex" (by simp),
      lookupField_setF_other fs "version" "metadata" (by simp), isNum]
  | _ => rfl

theorem validStateSpec_set_bss (s : JSVal) (v : JSVal) :
    validStateSpec (setField s "browserStorageState" v) = validStateSpec s := by
  cases s with
  | obj fs =>
    simp only [setField, validStateSpec,
      lookupField_setF_other fs "browserStorageState" "version" (by simp),
      lookupField_setF_other fs "browserStorageState" "tabs" (by simp),
      lookupField_setF_other fs "browserStorageState" "currentTabIndex" (by simp),
      lookupField_setF_other fs "browserStorageState" "metadata" (by simp)]
  | _ => rfl

theorem validStateSpec_remove_bss (s : JSVal) :
    validStateSpec (removeField s "browserStorageState") = validStateSpec s := by
  cases s with
  | obj fs =>
    simp only [removeField, validStateSpec,
      lookupField_removeF_other fs "browserStorageState" "version" (by simp),
      lookupField_removeF_other fs "browserStorageState" "tabs" (by simp),
      lookupField_removeF_other fs "browserStorageState" "currentTabIndex" (by simp),
      lookupField_removeF_other fs "browserStorageState" "metadata" (by simp)]
  | _ => rfl

theorem metadata_obj_of_valid (s : JSVal) (hvalid : validStateSpec s = true) :
    ∃ fs gs, s = .obj fs ∧ lookupField fs "metadata" = .obj gs := by
  cases s with
  | obj fs =>
    refine ⟨fs, ?_⟩
    simp only [validStateSpec, Bool.and_eq_true] at hvalid
    obtain ⟨⟨⟨hver, htabs⟩, hcti⟩, hmd⟩ := hvalid
    cases hm : lookupField fs "metadata" with
    | obj gs => exact ⟨gs, rfl, rfl⟩
    | _ => rw [hm] at hmd; simp [fieldD, isStr] at hmd
  | _ => simp [validStateSpec] at hvalid

theorem validStateSpec_set_serializedBy (s : JSVal) (w : JSVal)
    (hvalid : validStateSpec s = true) :
    validStateSpec
      (setField s "metadata" (setField (fieldD s "metadata") "serializedBy" w)) = true := by
  obtain ⟨fs, gs, rfl, hm⟩ := metadata_obj_of_valid s hvalid
  simp only [fieldD, hm, setField, validStateSpec, lookupField_setF_same,
    lookupField_setF_other fs "metadata" "version" (by simp),
    lookupField_setF_other fs "metadata" "tabs" (by simp),
    lookupField_setF_other fs "metadata" "currentTabIndex" (by simp),
    lookupField_setF_other gs "serializedBy" "lastUpdated" (by simp)]
  simp only [validStateSpec, fieldD, hm] at hvalid
  exact hvalid

theorem validStateSpec_remove_serializedBy (s : JSVal)
    (hvalid : validStateSpec s = true) :
    validStateSpec
      (setField s "metadata" (removeField (fieldD s "metadata") "serializedBy")) = true := by
  obtain ⟨fs, gs, rfl, hm⟩ := metadata_obj_of_valid s hvalid
  simp only [fieldD, hm, setField, removeField, validStateSpec, lookupField_setF_same,
    lookupField_setF_other fs "metadata" "version" (by simp),
    lookupField_setF_other fs "metadata" "tabs" (by simp),
    lookupField_setF_other fs "metadata" "currentTabIndex" (by simp),
    lookupField_removeF_other gs "serializedBy" "lastUpdated" (by simp)]
  simp only [validStateSpec, fieldD, hm] at hvalid
  exact hvalid

/-! ## Helper lemmas about serialize and hydrate -/

theorem serializeTabsFrom_length (ts : List Tab) (j : Nat) :
    (StateManager.serializeTabsFrom j ts).length = ts.length := by
  induction ts generalizing j with
  | nil => rfl
  | cons t rest ih => simp [StateManager.serializeTabsFrom, ih]

theorem serializeTabsFrom_get (ts : List Tab) (j i : Nat)
    (hi : i < (StateManager.serializeTabsFrom j ts).length) (hj : i < ts.length) :
    (StateManager.serializeTabsFrom j ts).get ⟨i, hi⟩ =
      StateManager.mkSerializedTab (j + i) (ts.get ⟨i, hj⟩) := by
  induction ts generalizing j i with
  | nil => cases hj
  | cons t rest ih =>
    cases i with
    | zero => simp [StateManager.serializeTabsFrom]
    | succ k =>
      have hi2 : k < (StateManager.serializeTabsFrom (j + 1) rest).length := by
        rw [serializeTabsFrom_length]
        exact Nat.lt_of_succ_lt_succ hj
      have hj2 : k < rest.length := Nat.lt_of_succ_lt_succ hj
      simp only [StateManager.serializeTabsFrom, List.get_eq_getElem,
        List.getElem_cons_succ]
      have hrec := ih (j + 1) k hi2 hj2
      simp only [List.get_eq_getElem] at hrec
      rw [hrec, show j + 1 + k = j + (k + 1) from by omega]

theorem lastN_of_le {α : Type _} (n : Nat) (l : List α) (h : l.length ≤ n) :
    lastN n l = l := by
  simp [lastN, Nat.sub_eq_zero_of_le h]

theorem lastN_length_of_ge {α : Type _} (n : Nat) (l : List α) (h : n ≤ l.length) :
    (lastN n l).length = n := by
  simp only [lastN, List.length_drop]
  omega

theorem lastN_suffix {α : Type _} (n : Nat) (l : List α) :
    List.IsSuffix (lastN n l) l :=
  List.drop_suffix _ _

theorem indexOf_lt_of_mem_take {α : Type _} [DecidableEq α] (a : α) (l : List α) (n : Nat)
    (h : a ∈ l.take n) : List.indexOf a l < n := by
  induction l generalizing n with
  | nil => simp at h
  | cons b tl ih =>
    cases n with
    | zero => simp at h
    | succ m =>
      rw [List.take_succ_cons] at h
      rcases List.mem_cons.1 h with rfl | hmem
      · rw [List.indexOf_cons_self]
        omega
      · by_cases hb : b = a
        · subst hb
          rw [List.indexOf_cons_self]
          omega
        · rw [List.indexOf_cons_ne _ hb]
          exact Nat.succ_lt_succ (ih m hmem)

theorem contains_eq_mem {α : Type _} [DecidableEq α] (l : List α) (a : α) :
    l.contains a = true ↔ a ∈ l :=
  List.elem_iff

theorem restoreTabs_length (ts : List Tab) (ss : List SerializedTab) (n : Nat) :
    (restoreTabs ts ss n).length = ts.length := by
  induction ts generalizing ss n with
  | nil => cases n <;> cases ss <;> simp [restoreTabs]
  | cons t rest ih =>
    cases n with
    | zero => simp [restoreTabs]
    | succ m =>
      cases ss with
      | nil => simp [restoreTabs]
      | cons s rest2 => simp [restoreTabs, ih]

theorem restoreTabs_get (ts : List Tab) (ss : List SerializedTab)
    (hlen : ts.length = ss.length) (i : Nat)
    (hi : i < (restoreTabs ts ss ss.length).length) (hj : i < ts.length)
    (hk : i < ss.length) :
    (restoreTabs ts ss ss.length).get ⟨i, hi⟩ =
      restoreTab (ts.get ⟨i, hj⟩) (ss.get ⟨i, hk⟩) := by
  induction ts generalizing ss i with
  | nil => cases hj
  | cons t rest ih =>
    cases ss with
    | nil => cases hk
    | cons s rest2 =>
      cases i with
      | zero => simp [restoreTabs]
      | succ k =>
        have hlen2 : rest.length = rest2.length := by
          simpa using hlen
        have hi2 : k < (restoreTabs rest rest2 rest2.length).length := by
          rw [restoreTabs_length]
          exact Nat.lt_of_succ_lt_succ hj
        have hj2 : k < rest.length := Nat.lt_of_succ_lt_succ hj
        have hk2 : k < rest2.length := Nat.lt_of_succ_lt_succ hk
        have hrec := ih rest2 hlen2 k hi2 hj2 hk2
        simp only [List.get_eq_getElem] at hrec
        simp only [restoreTabs, List.length_cons, List.get_eq_getElem,
          List.getElem_cons_succ]
        exact hrec

theorem restoreTabs_map_id (ts : List Tab) (ss : List SerializedTab) (n : Nat) :
    (restoreTabs ts ss n).map Tab.id = ts.map Tab.id := by
  induction ts generalizing ss n with
  | nil => cases n <;> cases ss <;> simp [restoreTabs]
  | cons t rest ih =>
    cases n with
    | zero => simp [restoreTabs]
    | succ m =>
      cases ss with
      | nil => simp [restoreTabs]
      | cons s rest2 => simp [restoreTabs, restoreTab, ih]

theorem serialize_tabs_def (ctx : Context) (m : Option Int) (now hn us : String) :
    (StateManager.serialize ctx m now hn us).tabs =
      StateManager.serializeTabsFrom 0 (retainedTabs ctx m) := rfl

theorem serialize_cti_def (ctx : Context) (m : Option Int) (now hn us : String) :
    (StateManager.serialize ctx m now hn us).currentTabIndex =
      (match ctx.currentTab with
       | some ct =>
         if (retainedTabs ctx m).contains ct then
           Int.ofNat (List.indexOf ct (retainedTabs ctx m))
         else -1
       | none => -1) := rfl

theorem retainedTabs_get (ctx : Context) (m : Option Int) (i : Nat)
    (hr : i < (retainedTabs ctx m).length) (hj : i < ctx.tabs.length) :
    (retainedTabs ctx m).get ⟨i, hr⟩ = ctx.tabs.get ⟨i, hj⟩ := by
  cases m with
  | none => rfl
  | some k =>
    by_cases hk : 0 < k <;>
      simp [retainedTabs, hk, List.get_eq_getElem, List.getElem_take]

theorem serialize_tabs_get (ctx : Context) (m : Option Int) (now hn us : String) (i : Nat)
    (hi : i < (StateManager.serialize ctx m now hn us).tabs.length)
    (hj : i < ctx.tabs.length) :
    (StateManager.serialize ctx m now hn us).tabs.get ⟨i, hi⟩ =
      StateManager.mkSerializedTab i (ctx.tabs.get ⟨i, hj⟩) := by
  have hi2 : i < (StateManager.serializeTabsFrom 0 (retainedTabs ctx m)).length := by
    rw [← serialize_tabs_def ctx m now hn us]
    exact hi
  have hr : i < (retainedTabs ctx m).length := by
    rw [serializeTabsFrom_length] at hi2
    exact hi2
  have h1 := serializeTabsFrom_get (retainedTabs ctx m) 0 i hi2 hr
  rw [Nat.zero_add, retainedTabs_get ctx m i hr hj] at h1
  exact h1

/-! ## Claim theorems -/

/-- C2 (corrected): `StateManager.isValidState` returns `true` exactly on
the values that are objects with numeric `version`, an array `tabs` whose
entries have string `url`/`title`, numeric `index` and an array
`recentConsoleMessages`, numeric `currentTabIndex`, and a `metadata` with
string `lastUpdated`; acceptance never depends on the numeric value of
`version`.  A deviating value yields `false` — except that a `null` or
`undefined` entry of the `tabs` array makes the tab-loop property read
throw instead of returning `false` (every thrown exception stems from such
an entry). -/
theorem isValidState_characterization (s : JSVal) :
    (StateManager.isValidState s = .ok true ↔ validStateSpec s = true) ∧
    (StateManager.isValidState s = .error () → noNullTabEntries s = false) ∧
    (validStateSpec s = false → noNullTabEntries s = true →
      StateManager.isValidState s = .ok false) ∧
    (∀ n m : Int,
      (StateManager.isValidState (setField s "version" (.num n)) = .ok true ↔
        StateManager.isValidState (setField s "version" (.num m)) = .ok true)) := by
  refine ⟨isValidState_ok_true_iff s, isValidState_error_imp s, ?_, ?_⟩
  · intro hspec hclean
    obtain ⟨b, hb⟩ := isValidState_total_of_clean s hclean
    cases b with
    | false => exact hb
    | true =>
      have htrue := (isValidState_ok_true_iff s).1 hb
      rw [hspec] at htrue
      exact (Bool.false_ne_true htrue).elim
  · intro n m
    rw [isValidState_ok_true_iff, isValidState_ok_true_iff,
      validStateSpec_setField_version s n m]

/-- C2 witness: the spec's accepted example snapshot validates. -/
theorem isValidState_characterization_witness :
    StateManager.isValidState goodState = .ok true :=
  (isValidState_characterization goodState).1.mpr (by decide)

/-- C2 counterexample: `{version:1, tabs:[null], currentTabIndex:0,
metadata:{lastUpdated:"…"}}` deviates from the required shape (the tab
entry has no string `url`), yet `isValidState` does not return `false` —
the property read on the `null` entry throws. -/
theorem isValidState_deviation_throws :
    validStateSpec nullTabState = false ∧
      StateManager.isValidState nullTabState ≠ .ok false ∧
      StateManager.isValidState nullTabState = .error () :=
  ⟨by decide, by decide, by decide⟩

/-- C3 (corrected): on every input whose `tabs` array (when present) is
free of `null`/`undefined` entries, `StateManager.isValidState` returns a
boolean and never raises; a `null` or `undefined` tabs entry instead makes
the tab-loop property read throw a TypeError. -/
theorem isValidState_no_raise_of_clean (s : JSVal) (h : noNullTabEntries s = true) :
    StateManager.isValidState s = .ok true ∨ StateManager.isValidState s = .ok false := by
  obtain ⟨b, hb⟩ := isValidState_total_of_clean s h
  cases b with
  | false => exact Or.inr hb
  | true => exact Or.inl hb

/-- C3 witness: the accepted example snapshot yields a boolean. -/
theorem isValidState_no_raise_witness :
    StateManager.isValidState goodState = .ok true ∨
      StateManager.isValidState goodState = .ok false :=
  isValidState_no_raise_of_clean goodState (by decide)

/-- C3 counterexample: at `{version:1, tabs:[undefined], …}` the validator
does not return a boolean — the tab-loop property read throws. -/
theorem isValidState_raises_on_undef_entry :
    StateManager.isValidState undefTabState = .error () := by decide

/-- C9: a value passing the structural checks passes them regardless of
the `browserStorageState` field and the `metadata.serializedBy` field —
either may be replaced by an arbitrary value (`null` included) or removed
altogether, and the validator still accepts. -/
theorem isValidState_ignores_extras (s v w : JSVal)
    (h : StateManager.isValidState s = .ok true) :
    StateManager.isValidState (setField s "browserStorageState" v) = .ok true ∧
    StateManager.isValidState (removeField s "browserStorageState") = .ok true ∧
    StateManager.isValidState
      (setField s "metadata" (setField (fieldD s "metadata") "serializedBy" w)) = .ok true ∧
    StateManager.isValidState
      (setField s "metadata" (removeField (fieldD s "metadata") "serializedBy")) = .ok true := by
  have hspec := (isValidState_ok_true_iff s).1 h
  refine ⟨?_, ?_, ?_, ?_⟩
  · rw [isValidState_ok_true_iff, validStateSpec_set_bss]
    exact hspec
  · rw [isValidState_ok_true_iff, validStateSpec_remove_bss]
    exact hspec
  · rw [isValidState_ok_true_iff]
    exact validStateSpec_set_serializedBy s w hspec
  · rw [isValidState_ok_true_iff]
    exact validStateSpec_remove_serializedBy s hspec

/-- C9 witness: concrete edits of the accepted example snapshot. -/
theorem isValidState_ignores_extras_witness :
    StateManager.isValidState (setField goodState "browserStorageState" (.num 7)) = .ok true ∧
    StateManager.isValidState (removeField goodState "browserStorageState") = .ok true ∧
    StateManager.isValidState
      (setField goodState "metadata"
        (setField (fieldD goodState "metadata") "serializedBy" .null)) = .ok true ∧
    StateManager.isValidState
      (setField goodState "metadata"
        (removeField (fieldD goodState "metadata") "serializedBy")) = .ok true :=
  isValidState_ignores_extras goodState (.num 7) .null (by decide)

/-- C1: with a positive `maxTabsToTrack` = k, `serialize` emits exactly
`min k m` entries — the leading k tabs of the discovery-ordered sequence,
each at its own position, never a different subset — and reports
`currentTabIndex = -1` whenever the current tab's position in the full
sequence is ≥ k; with `maxTabsToTrack` absent, zero or negative no
truncation occurs and every tab is emitted. -/
theorem serialize_truncation (ctx : Context) (now hn us : String) :
    (∀ k : Int, 0 < k →
      (StateManager.serialize ctx (some k) now hn us).tabs.length =
        min k.toNat ctx.tabs.length) ∧
    (∀ m : Option Int, ∀ i : Nat,
      ∀ (hi : i < (StateManager.serialize ctx m now hn us).tabs.length)
        (hj : i < ctx.tabs.length),
      (StateManager.serialize ctx m now hn us).tabs.get ⟨i, hi⟩ =
        StateManager.mkSerializedTab i (ctx.tabs.get ⟨i, hj⟩)) ∧
    (∀ k : Int, 0 < k → ∀ ct : Tab, ctx.currentTab = some ct →
      k ≤ Int.ofNat (List.indexOf ct ctx.tabs) →
      (StateManager.serialize ctx (some k) now hn us).currentTabIndex = -1) ∧
    (∀ k : Int, k ≤ 0 →
      (StateManager.serialize ctx (some k) now hn us).tabs.length = ctx.tabs.length) ∧
    ((StateManager.serialize ctx none now hn us).tabs.length = ctx.tabs.length) := by
  refine ⟨?_, ?_, ?_, ?_, ?_⟩
  · intro k hk
    rw [serialize_tabs_def, serializeTabsFrom_length]
    simp [retainedTabs, hk, List.length_take]
  · intro m i hi hj
    exact serialize_tabs_get ctx m now hn us i hi hj
  · intro k hk ct hct hpos
    have hnotmem : ct ∉ ctx.tabs.take k.toNat := by
      intro hmem
      have hlt := indexOf_lt_of_mem_take ct ctx.tabs k.toNat hmem
      have hpos2 : k ≤ (List.indexOf ct ctx.tabs : Int) := hpos
      omega
    rw [serialize_cti_def, hct]
    simp [retainedTabs, hk, hnotmem]
  · intro k hk
    have hk2 : ¬ 0 < k := by omega
    rw [serialize_tabs_def, serializeTabsFrom_length]
    simp [retainedTabs, hk2]
  · rw [serialize_tabs_def, serializeTabsFrom_length]
    rfl

/-- C1 witness: `exCtx` has three tabs with the current one at position 2;
`maxTabsToTrack = 2` emits exactly the two leading entries and reports −1,
while the unbounded call emits all three. -/
theorem serialize_truncation_witness :
    (StateManager.serialize exCtx (some 2) "t" "h" "u").tabs.length = min 2 3 ∧
    (StateManager.serialize exCtx (some 2) "t" "h" "u").currentTabIndex = -1 ∧
    (StateManager.serialize exCtx none "t" "h" "u").tabs.length = exCtx.tabs.length :=
  ⟨(serialize_truncation exCtx "t" "h" "u").1 2 (by decide),
   (serialize_truncation exCtx "t" "h" "u").2.2.1 2 (by decide) exTab3 rfl (by decide),
   (serialize_truncation exCtx "t" "h" "u").2.2.2.2⟩

/-- C4: every emitted tab entry's `recentConsoleMessages` is exactly the
last-50 tail of that tab's console buffer: a buffer of ≤ 50 messages is
emitted unchanged, a larger one loses all but its final 50 messages, kept
as a contiguous suffix in original emission order. -/
theorem serialize_console_tail (ctx : Context) (m : Option Int) (now hn us : String)
    (i : Nat) (hi : i < (StateManager.serialize ctx m now hn us).tabs.length)
    (hj : i < ctx.tabs.length) :
    (((StateManager.serialize ctx m now hn us).tabs.get ⟨i, hi⟩).recentConsoleMessages =
      lastN 50 (ctx.tabs.get ⟨i, hj⟩).consoleMessages) ∧
    ((ctx.tabs.get ⟨i, hj⟩).consoleMessages.length ≤ 50 →
      ((StateManager.serialize ctx m now hn us).tabs.get ⟨i, hi⟩).recentConsoleMessages =
        (ctx.tabs.get ⟨i, hj⟩).consoleMessages) ∧
    (50 < (ctx.tabs.get ⟨i, hj⟩).consoleMessages.length →
      ((StateManager.serialize ctx m now hn us).tabs.get
          ⟨i, hi⟩).recentConsoleMessages.length = 50 ∧
      List.IsSuffix
        (((StateManager.serialize ctx m now hn us).tabs.get ⟨i, hi⟩).recentConsoleMessages)
        ((ctx.tabs.get ⟨i, hj⟩).consoleMessages)) := by
  have hget := serialize_tabs_get ctx m now hn us i hi hj
  refine ⟨?_, ?_, ?_⟩
  · rw [hget]
    rfl
  · intro hle
    rw [hget]
    exact lastN_of_le 50 _ hle
  · intro hgt
    rw [hget]
    exact ⟨lastN_length_of_ge 50 _ (Nat.le_of_lt hgt), lastN_suffix 50 _⟩

/-- C4 witness: the tab with 60 recorded messages serializes exactly its
last 50 messages. -/
theorem serialize_console_tail_witness :
    ((StateManager.serialize exCtxBig none "t" "h" "u").tabs.get
        ⟨0, by decide⟩).recentConsoleMessages = lastN 50 exTabBig.consoleMessages ∧
    ((StateManager.serialize exCtxBig none "t" "h" "u").tabs.get
        ⟨0, by decide⟩).recentConsoleMessages.length = 50 :=
  ⟨(serialize_console_tail exCtxBig none "t" "h" "u" 0 (by decide) (by decide)).1,
   ((serialize_console_tail exCtxBig none "t" "h" "u" 0 (by decide) (by decide)).2.2
      (by decide)).1⟩

/-- C5: when the browser storage-state accessor throws during `serialize`
(current tab present), the failure is absorbed: `browserStorageState`
degrades to null while the tab entries, `currentTabIndex`, `version` and
`metadata` are all still produced, identical to what any successful
storage read would have yielded. -/
theorem serialize_storage_failure (ctx : Context) (m : Option Int) (now hn us : String)
    (ct : Tab) (hct : ctx.currentTab = some ct)
    (hfail : ctx.storageState = .error ()) :
    (StateManager.serialize ctx m now hn us).browserStorageState = none ∧
    ∀ st : StorageState,
      (StateManager.serialize ctx m now hn us).tabs =
        (StateManager.serialize { ctx with storageState := .ok st } m now hn us).tabs ∧
      (StateManager.serialize ctx m now hn us).currentTabIndex =
        (StateManager.serialize { ctx with storageState := .ok st } m now hn us).currentTabIndex ∧
      (StateManager.serialize ctx m now hn us).version =
        (StateManager.serialize { ctx with storageState := .ok st } m now hn us).version ∧
      (StateManager.serialize ctx m now hn us).metadata =
        (StateManager.serialize { ctx with storageState := .ok st } m now hn us).metadata := by
  constructor
  · simp [StateManager.serialize, hct, hfail]
  · intro st
    exact ⟨rfl, rfl, rfl, rfl⟩

/-- C5 witness: the session whose accessor throws still serializes its tab
list, with null storage state. -/
theorem serialize_storage_failure_witness :
    (StateManager.serialize exCtxFail none "t" "h" "u").browserStorageState = none ∧
    (StateManager.serialize exCtxFail none "t" "h" "u").tabs =
      (StateManager.serialize
        { exCtxFail with storageState := .ok { cookies := [], origins := none } }
        none "t" "h" "u").tabs :=
  ⟨(serialize_storage_failure exCtxFail none "t" "h" "u" exTab1 rfl rfl).1,
   ((serialize_storage_failure exCtxFail none "t" "h" "u" exTab1 rfl rfl).2
      { cookies := [], origins := none }).1⟩

/-- C10: when the session has no current tab, `serialize` reports
`browserStorageState = null` and `currentTabIndex = -1` (tabs may well be
nonempty), and its entire output is independent of the storage accessor —
no storage read is attempted, so even a throwing accessor is never
consulted. -/
theorem serialize_no_current_tab (ctx : Context) (m : Option Int) (now hn us : String)
    (h : ctx.currentTab = none) :
    (StateManager.serialize ctx m now hn us).browserStorageState = none ∧
    (StateManager.serialize ctx m now hn us).currentTabIndex = -1 ∧
    ∀ acc : Except Unit StorageState,
      StateManager.serialize { ctx with storageState := acc } m now hn us =
        StateManager.serialize ctx m now hn us := by
  refine ⟨?_, ?_, ?_⟩
  · simp [StateManager.serialize, h]
  · simp [StateManager.serialize, h]
  · intro acc
    simp [StateManager.serialize, h]

/-- C10 witness: a two-tab session with no current tab. -/
theorem serialize_no_current_tab_witness :
    (StateManager.serialize exCtxNoCurrent none "t" "h" "u").browserStorageState = none ∧
    (StateManager.serialize exCtxNoCurrent none "t" "h" "u").currentTabIndex = -1 ∧
    0 < exCtxNoCurrent.tabs.length :=
  ⟨(serialize_no_current_tab exCtxNoCurrent none "t" "h" "u" rfl).1,
   (serialize_no_current_tab exCtxNoCurrent none "t" "h" "u" rfl).2.1,
   by decide⟩

/-- C6: `hydrate` creates exactly one blank page when the browser context
has zero pages, creates none when it already has a page, and any page
creation precedes the reconciliation step (the trace splits into a
newPage-only prefix followed by a reconciliation-only suffix). -/
theorem hydrate_keepalive (bc : BrowserContext) (st : SerializedState) (c : Option Context) :
    ((StateManager.hydrate bc st c).1.countP isNewPage =
      if bc.pages.length = 0 then 1 else 0) ∧
    ∃ pre post, (StateManager.hydrate bc st c).1 = pre ++ post ∧
      (∀ a ∈ pre, a = HydrateAction.newPage) ∧
      (∀ a ∈ post, isReconcile a = true) ∧
      pre.length = (if bc.pages.length = 0 then 1 else 0) := by
  cases c with
  | none =>
    by_cases hp : bc.pages.length = 0
    · exact ⟨by simp [StateManager.hydrate, hp, isNewPage],
        [HydrateAction.newPage], [], by simp [StateManager.hydrate, hp],
        by simp, by simp, by simp [hp]⟩
    · exact ⟨by simp [StateManager.hydrate, hp, isNewPage],
        [], [], by simp [StateManager.hydrate, hp], by simp, by simp, by simp [hp]⟩
  | some cs =>
    by_cases ht : 0 < st.tabs.length
    · by_cases hp : bc.pages.length = 0
      · exact ⟨by simp [StateManager.hydrate, hp, ht, isNewPage, isReconcile],
          [HydrateAction.newPage],
          [HydrateAction.hydrateTabState st.tabs st.currentTabIndex st.tabs.length],
          by simp [StateManager.hydrate, hp, ht],
          by simp, by simp [isReconcile], by simp [hp]⟩
      · exact ⟨by simp [StateManager.hydrate, hp, ht, isNewPage, isReconcile],
          [],
          [HydrateAction.hydrateTabState st.tabs st.currentTabIndex st.tabs.length],
          by simp [StateManager.hydrate, hp, ht],
          by simp, by simp [isReconcile], by simp [hp]⟩
    · by_cases hp : bc.pages.length = 0
      · exact ⟨by simp [StateManager.hydrate, hp, ht, isNewPage],
          [HydrateAction.newPage], [], by simp [StateManager.hydrate, hp, ht],
          by simp, by simp, by simp [hp]⟩
      · exact ⟨by simp [StateManager.hydrate, hp, ht, isNewPage],
          [], [], by simp [StateManager.hydrate, hp, ht], by simp, by simp, by simp [hp]⟩

/-- C6 witness: a zero-page context gets exactly one keep-alive page
created; a one-page context gets none. -/
theorem hydrate_keepalive_witness :
    (StateManager.hydrate exBCEmpty exSnapshot none).1.countP isNewPage = 1 ∧
    (StateManager.hydrate exBCOne exSnapshot none).1.countP isNewPage = 0 := by
  constructor
  · have h := (hydrate_keepalive exBCEmpty exSnapshot none).1
    simpa [exBCEmpty] using h
  · have h := (hydrate_keepalive exBCOne exSnapshot none).1
    simpa [exBCOne] using h

/-- C7: `hydrate` performs the tab-state reconciliation call if and only
if a session is supplied and the snapshot has at least one tab entry, and
then passes exactly the snapshot's tab entries, its currentTabIndex, and
the stored tab count as the restoration bound; otherwise the session is
returned untouched.  Toward the browser it never closes a page, never
navigates, and opens nothing beyond the single keep-alive page (none at
all when a page already exists). -/
theorem hydrate_reconciliation (bc : BrowserContext) (st : SerializedState)
    (c : Option Context) :
    ((StateManager.hydrate bc st c).1.countP isReconcile =
      if c.isSome ∧ 0 < st.tabs.length then 1 else 0) ∧
    (∀ cs : Context, c = some cs → 0 < st.tabs.length →
      (StateManager.hydrate bc st c).2 =
        some (cs.hydrateTabState st.tabs st.currentTabIndex st.tabs.length) ∧
      HydrateAction.hydrateTabState st.tabs st.currentTabIndex st.tabs.length ∈
        (StateManager.hydrate bc st c).1) ∧
    (∀ cs : Context, c = some cs → ¬ 0 < st.tabs.length →
      (StateManager.hydrate bc st c).2 = some cs) ∧
    (∀ (stored : List SerializedTab) (cti : Int) (mx : Nat),
      HydrateAction.hydrateTabState stored cti mx ∈ (StateManager.hydrate bc st c).1 →
      stored = st.tabs ∧ cti = st.currentTabIndex ∧ mx = st.tabs.length) ∧
    (∀ a ∈ (StateManager.hydrate bc st c).1,
      isNewPage a = true ∨ isReconcile a = true) ∧
    ((StateManager.hydrate bc st c).1.countP isNewPage ≤ 1) ∧
    (0 < bc.pages.length → (StateManager.hydrate bc st c).1.countP isNewPage = 0) := by
  cases c with
  | none =>
    by_cases hp : bc.pages.length = 0 <;>
      simp [StateManager.hydrate, hp, isNewPage, isReconcile]
  | some cs =>
    by_cases hp : bc.pages.length = 0 <;>
      by_cases ht : 0 < st.tabs.length <;>
        simp [StateManager.hydrate, hp, ht, isNewPage, isReconcile]

/-- C7 witness: with a supplied session and a one-tab snapshot on a
one-page context, hydrate reconciles with the snapshot's arguments and
opens nothing. -/
theorem hydrate_reconciliation_witness :
    (StateManager.hydrate exBCOne exSnapshot (some exFresh)).2 =
      some (exFresh.hydrateTabState exSnapshot.tabs exSnapshot.currentTabIndex
        exSnapshot.tabs.length) ∧
    (StateManager.hydrate exBCOne exSnapshot (some exFresh)).1.countP isNewPage = 0 :=
  ⟨((hydrate_reconciliation exBCOne exSnapshot (some exFresh)).2.1 exFresh rfl
      (by decide)).1,
   (hydrate_reconciliation exBCOne exSnapshot (some exFresh)).2.2.2.2.2.2 (by decide)⟩

theorem currentTabIndexOf_nil (c : Context) (h : c.tabs.length = 0) :
    currentTabIndexOf c = -1 := by
  have hnil : c.tabs = [] := List.length_eq_zero.mp h
  unfold currentTabIndexOf
  cases hc : c.currentTab with
  | none => rfl
  | some ct => simp [hnil]

theorem currentTabIndexOf_hydrateTabState_neg (c2 : Context)
    (stored : List SerializedTab) (cti : Int) (mx : Nat) (hneg : cti < 0) :
    currentTabIndexOf (c2.hydrateTabState stored cti mx) = -1 := by
  unfold currentTabIndexOf Context.hydrateTabState
  simp [hneg]

theorem currentTabIndexOf_hydrateTabState_pos (c2 : Context)
    (stored : List SerializedTab) (cti : Int) (mx : Nat)
    (hids2 : (c2.tabs.map Tab.id).Nodup) (hpos : 0 ≤ cti)
    (hlt : cti.toNat < (restoreTabs c2.tabs stored mx).length) :
    currentTabIndexOf (c2.hydrateTabState stored cti mx) = cti := by
  have hnodup : (restoreTabs c2.tabs stored mx).Nodup :=
    List.Nodup.of_map Tab.id (by rw [restoreTabs_map_id]; exact hids2)
  have hneg : ¬ cti < 0 := by omega
  unfold currentTabIndexOf Context.hydrateTabState
  simp only [hneg, if_false]
  rw [List.get?_eq_getElem?, List.getElem?_eq_getElem hlt]
  have hmem : (restoreTabs c2.tabs stored mx)[cti.toNat] ∈ restoreTabs c2.tabs stored mx :=
    List.getElem_mem hlt
  simp [hmem, List.indexOf_getElem hnodup]
  omega

/-- C8: serializing a session without truncation and hydrating the
snapshot (with a session) onto a context exposing the same number of
pages — a freshly discovered session of equal tab count and distinct tab
identities — reproduces in that session the original per-tab titles, the
per-tab console-message tails (last ≤ 50 messages), and the original
current-tab index. -/
theorem serialize_hydrate_roundtrip (ctx fresh : Context) (bc : BrowserContext)
    (now hn us : String)
    (hlen : fresh.tabs.length = ctx.tabs.length)
    (hids : (fresh.tabs.map Tab.id).Nodup) :
    ∃ after : Context,
      (StateManager.hydrate bc (StateManager.serialize ctx none now hn us)
        (some fresh)).2 = some after ∧
      after.tabs.length = ctx.tabs.length ∧
      (∀ i : Nat, ∀ (hi : i < after.tabs.length) (hj : i < ctx.tabs.length),
        (after.tabs.get ⟨i, hi⟩).lastTitle = (ctx.tabs.get ⟨i, hj⟩).lastTitle ∧
        (after.tabs.get ⟨i, hi⟩).consoleMessages =
          lastN 50 (ctx.tabs.get ⟨i, hj⟩).consoleMessages) ∧
      currentTabIndexOf after = currentTabIndexOf ctx := by
  set st := StateManager.serialize ctx none now hn us with hstdef
  have hstlen : st.tabs.length = ctx.tabs.length := by
    rw [serialize_tabs_def, serializeTabsFrom_length]
    rfl
  have hcti : st.currentTabIndex = currentTabIndexOf ctx := rfl
  by_cases hN : 0 < st.tabs.length
  · refine ⟨fresh.hydrateTabState st.tabs st.currentTabIndex st.tabs.length,
      by simp [StateManager.hydrate, hN], ?_, ?_, ?_⟩
    · show (restoreTabs fresh.tabs st.tabs st.tabs.length).length = ctx.tabs.length
      rw [restoreTabs_length, hlen]
    · intro i hi hj
      have hlen2 : fresh.tabs.length = st.tabs.length := by rw [hstlen, hlen]
      have hi2 : i < (restoreTabs fresh.tabs st.tabs st.tabs.length).length := hi
      have hjf : i < fresh.tabs.length := by
        rw [← restoreTabs_length fresh.tabs st.tabs st.tabs.length]
        exact hi
      have hk : i < st.tabs.length := by rw [hstlen]; exact hj
      have hget := restoreTabs_get fresh.tabs st.tabs hlen2 i hi2 hjf hk
      have hst_get : st.tabs.get ⟨i, hk⟩ =
          StateManager.mkSerializedTab i (ctx.tabs.get ⟨i, hj⟩) :=
        serialize_tabs_get ctx none now hn us i hk hj
      rw [hst_get] at hget
      constructor
      · show ((restoreTabs fresh.tabs st.tabs st.tabs.length).get ⟨i, hi2⟩).lastTitle =
          (ctx.tabs.get ⟨i, hj⟩).lastTitle
        rw [hget]
        rfl
      · show ((restoreTabs fresh.tabs st.tabs st.tabs.length).get ⟨i, hi2⟩).consoleMessages =
          lastN 50 (ctx.tabs.get ⟨i, hj⟩).consoleMessages
        rw [hget]
        rfl
    · rcases hct : ctx.currentTab with _ | ct
      · have h1 : st.currentTabIndex = -1 := by
          rw [hcti]
          simp [currentTabIndexOf, hct]
        have h2 : currentTabIndexOf ctx = -1 := by
          simp [currentTabIndexOf, hct]
        rw [h1, h2]
        exact currentTabIndexOf_hydrateTabState_neg fresh st.tabs (-1) st.tabs.length
          (by omega)
      · by_cases hmem : ct ∈ ctx.tabs
        · have h1 : st.currentTabIndex = Int.ofNat (List.indexOf ct ctx.tabs) := by
            rw [hcti]
            simp [currentTabIndexOf, hct, hmem]
          have h2 : currentTabIndexOf ctx = Int.ofNat (List.indexOf ct ctx.tabs) := by
            simp [currentTabIndexOf, hct, hmem]
          rw [h1, h2]
          apply currentTabIndexOf_hydrateTabState_pos fresh st.tabs _ st.tabs.length hids
            (Int.ofNat_nonneg _)
          rw [restoreTabs_length]
          have hplt := List.indexOf_lt_length.mpr hmem
          rw [hlen]
          simpa using hplt
        · have h1 : st.currentTabIndex = -1 := by
            rw [hcti]
            simp [currentTabIndexOf, hct, hmem]
          have h2 : currentTabIndexOf ctx = -1 := by
            simp [currentTabIndexOf, hct, hmem]
          rw [h1, h2]
          exact currentTabIndexOf_hydrateTabState_neg fresh st.tabs (-1) st.tabs.length
            (by omega)
  · refine ⟨fresh, by simp [StateManager.hydrate, hN], by rw [hlen], ?_, ?_⟩
    · intro i hi hj
      have h0 : ctx.tabs.length = 0 := by omega
      exact absurd hj (by omega)
    · have h0 : ctx.tabs.length = 0 := by
        rw [← hstlen]
        omega
      rw [currentTabIndexOf_nil fresh (by rw [hlen]; exact h0),
        currentTabIndexOf_nil ctx h0]

/-- C8 witness: serializing `exCtx` and hydrating onto `exFresh` (same
three pages, fresh identities) reproduces titles, console tails, and the
current-tab index. -/
theorem serialize_hydrate_roundtrip_witness :
    ∃ after : Context,
      (StateManager.hydrate exBCOne (StateManager.serialize exCtx none "t" "h" "u")
        (some exFresh)).2 = some after ∧
      after.tabs.length = exCtx.tabs.length ∧
      (∀ i : Nat, ∀ (hi : i < after.tabs.length) (hj : i < exCtx.tabs.length),
        (after.tabs.get ⟨i, hi⟩).lastTitle = (exCtx.tabs.get ⟨i, hj⟩).lastTitle ∧
        (after.tabs.get ⟨i, hi⟩).consoleMessages =
          lastN 50 (exCtx.tabs.get ⟨i, hj⟩).consoleMessages) ∧
      currentTabIndexOf after = currentTabIndexOf exCtx :=
  serialize_hydrate_roundtrip exCtx exFresh exBCOne "t" "h" "u" (by decide) (by decide)

end PwMcp
